import Mathlib

/-!
Verification development for the gcal-to-discord event-to-message
reconciliation core.

The Python sources embedded here are `src/gcal_to_discord/discord_client.py`
(class `DiscordClient`: the two in-memory indices, `rebuild_event_mapping`,
`upsert_event`, `delete_event_message`, `sync_events`) and
`src/gcal_to_discord/google_calendar.py` (class `GoogleCalendarEvent` and its
`to_discord_embed` rendering).

Modelling conventions:
* Python `dict[str, int]` becomes an association list `List (String × Nat)`
  with `dictGet` / `dictSet` / `dictErase`; `dictSet` keeps at most one
  entry per key, matching dict semantics observable through `get`.
* Python truthiness is explicit: `if not message_id` is true for both
  `None` and `0`, captured by `pyTruthy`; `if event.html_link` is
  `html_link ≠ ""`.
* The Discord transport is an oracle passed in as data: a `SendResult` per
  `channel.send` call, a `DeleteIOResult` per fetch/delete pair, and for the
  history scan a message list plus an optional failure point (the iterator
  raises after yielding that many messages). Exceptions in the Python code
  are modelled by these constructors; the `try/except` blocks become the
  corresponding match arms, so a function returning normally models the
  handler swallowing the exception.
* `datetime` values are modelled by their calendar fields; the two
  `strftime` format strings used by the code are implemented directly.
-/

/-- Result of one `channel.send(embed=...)` call: a created message id, or
a raised `discord.HTTPException` with its status, or any other exception. -/
inductive SendResult where
  | ok (messageId : Nat)
  | httpError (status : Nat)
  | otherError
deriving DecidableEq, Repr

/-- Result of the `fetch_message` / `delete` pair inside
`delete_event_message`: success, `discord.NotFound`, `discord.HTTPException`,
or any other exception. -/
inductive DeleteIOResult where
  | ok
  | notFound
  | httpError (status : Nat)
  | otherError
deriving DecidableEq, Repr

/-- Lookup in a Python `dict[str, int]` (`d.get(k)`). -/
def dictGet : List (String × Nat) → String → Option Nat
  | [], _ => none
  | (k, v) :: t, key => if key = k then some v else dictGet t key

/-- Remove a key from a Python `dict[str, int]` (`del d[k]`, total version). -/
def dictErase : List (String × Nat) → String → List (String × Nat)
  | [], _ => []
  | (k, v) :: t, key => if k = key then dictErase t key else (k, v) :: dictErase t key

/-- Assignment in a Python `dict[str, int]` (`d[k] = v`): afterwards `k`
maps to `v` and every other key is unchanged. -/
def dictSet (d : List (String × Nat)) (key : String) (v : Nat) : List (String × Nat) :=
  (key, v) :: dictErase d key

/-- Python truthiness of an `int | None` value: `None` and `0` are falsy. -/
def pyTruthy : Option Nat → Bool
  | none => false
  | some n => n != 0

/-- The mutable state of `DiscordClient` relevant to reconciliation:
`event_message_map` (event id → message id) and `_url_to_message_map`
(event html link → message id). -/
structure DCState where
  event_message_map : List (String × Nat)
  url_to_message_map : List (String × Nat)
deriving DecidableEq, Repr

/-- A `datetime` value as used by the code: only the fields consumed by the
two `strftime` format strings. -/
structure PyDateTime where
  year : Nat
  month : Nat
  day : Nat
  hour : Nat
  minute : Nat
deriving DecidableEq, Repr

/-- A constructed `GoogleCalendarEvent` (the attribute values after
`__init__` has parsed the raw API record). -/
structure GoogleCalendarEvent where
  id : String
  summary : String
  description : Option String
  location : Option String
  html_link : String
  start_time : Option PyDateTime
  end_time : Option PyDateTime
  is_all_day : Bool
  attendees : List String
deriving DecidableEq, Repr

/-- One field of a Discord embed dict (`name`, `value`, `inline`). -/
structure EmbedField where
  name : String
  value : String
  inlineFlag : Bool
deriving DecidableEq, Repr

/-- The embed dict built by `to_discord_embed`. -/
structure DiscordEmbed where
  title : String
  url : String
  color : Nat
  fields : List EmbedField
deriving DecidableEq, Repr

/-- `%B`: full month name, as Python `strftime` renders it. -/
def monthName : Nat → String
  | 1 => "January"
  | 2 => "February"
  | 3 => "March"
  | 4 => "April"
  | 5 => "May"
  | 6 => "June"
  | 7 => "July"
  | 8 => "August"
  | 9 => "September"
  | 10 => "October"
  | 11 => "November"
  | 12 => "December"
  | _ => ""

/-- Zero-padding to two digits (`%d`, `%I`, `%M`). -/
def pad2 (n : Nat) : String :=
  if n < 10 then "0" ++ toString n else toString n

/-- `strftime("%B %d, %Y")`. -/
def strftimeDate (d : PyDateTime) : String :=
  monthName d.month ++ " " ++ pad2 d.day ++ ", " ++ toString d.year

/-- `strftime("%I:%M %p")`: 12-hour clock with AM/PM. -/
def strftimeClock (d : PyDateTime) : String :=
  let h12 := if d.hour % 12 = 0 then 12 else d.hour % 12
  pad2 h12 ++ ":" ++ pad2 d.minute ++ " " ++ (if d.hour < 12 then "AM" else "PM")

/-- Python slicing `s[:n]` on a `str` (by code points). -/
def strSlice (s : String) (n : Nat) : String :=
  String.mk (s.data.take n)

/-- The `⏰ Time` field list of `to_discord_embed` (empty when
`self.start_time` is `None`). -/
def timeFields (ev : GoogleCalendarEvent) : List EmbedField :=
  match ev.start_time with
  | none => []
  | some st =>
    let time_str :=
      if ev.is_all_day then strftimeDate st
      else
        match ev.end_time with
        | some et => strftimeDate st ++ " at " ++ strftimeClock st ++ " - " ++ strftimeClock et
        | none => strftimeDate st ++ " at " ++ strftimeClock st
    [⟨"⏰ Time", time_str, false⟩]

/-- The `📍 Location` field list (`if self.location:`, so `None` and the
empty string both render nothing). -/
def locationFields (ev : GoogleCalendarEvent) : List EmbedField :=
  match ev.location with
  | none => []
  | some l => if l ≠ "" then [⟨"📍 Location", l, false⟩] else []

/-- The description value after the 1024-character Discord field limit:
`self.description[:1021] + "..." if len(self.description) > 1024 else
self.description`. -/
def truncatedDescription (s : String) : String :=
  if s.length > 1024 then strSlice s 1021 ++ "..." else s

/-- The `📝 Description` field list (`if self.description:`). -/
def descriptionFields (ev : GoogleCalendarEvent) : List EmbedField :=
  match ev.description with
  | none => []
  | some s => if s ≠ "" then [⟨"📝 Description", truncatedDescription s, false⟩] else []

/-- The rendered attendee line: first 10 addresses joined by `", "`, plus
`" (+N more)"` when more than 10 attendees exist. -/
def attendeesValue (attendees : List String) : String :=
  let attendees_str := String.intercalate ", " (attendees.take 10)
  if attendees.length > 10 then
    attendees_str ++ " (+" ++ toString (attendees.length - 10) ++ " more)"
  else attendees_str

/-- The `👥 Attendees` field list (`if self.attendees:`). -/
def attendeeFields (ev : GoogleCalendarEvent) : List EmbedField :=
  if ev.attendees ≠ [] then [⟨"👥 Attendees", attendeesValue ev.attendees, false⟩] else []

/-- `GoogleCalendarEvent.to_discord_embed`. -/
def to_discord_embed (ev : GoogleCalendarEvent) : DiscordEmbed :=
  { title := ev.summary
    url := ev.html_link
    color := 0x4285F4
    fields := timeFields ev ++ locationFields ev ++ descriptionFields ev ++ attendeeFields ev }

/-- Read the value of the embed field with the given name, if rendered. -/
def getFieldValue (e : DiscordEmbed) (nm : String) : Option String :=
  (e.fields.find? (fun f => f.name = nm)).map (fun f => f.value)

/-- One message yielded by `channel.history(limit=...)`: its author id, its
message id, and its embed list (each embed contributing only its `url`,
which is `None` or a string in Python). -/
structure HistMessage where
  authorId : Nat
  id : Nat
  embeds : List (Option String)
deriving DecidableEq, Repr

/-- The body of the history loop in `rebuild_event_mapping` for one message:
`if self.client.user and message.author.id == self.client.user.id and
message.embeds:` then, when `embed.url` is truthy, store
`_url_to_message_map[embed.url] = message.id`. -/
def processMessage (botUser : Option Nat) (st : DCState) (msg : HistMessage) : DCState :=
  if (botUser.isSome ∧ msg.authorId = botUser.getD 0 ∧ msg.embeds ≠ []) then
    match msg.embeds with
    | [] => st
    | embedUrl :: _ =>
      match embedUrl with
      | some u =>
        if u ≠ "" then
          { st with url_to_message_map := dictSet st.url_to_message_map u msg.id }
        else st
      | none => st
  else st

/-- `DiscordClient.rebuild_event_mapping`. `channelAvailable` models
`self.channel` being set; `botUser` is `self.client.user`'s id; `history`
is the message sequence the channel iterator would yield; `failAfter = some k`
models a transport exception raised by the iterator after `k` messages
(the `except` arms log and return, keeping the state built so far). -/
def rebuild_event_mapping (st : DCState) (channelAvailable : Bool) (botUser : Option Nat)
    (history : List HistMessage) (failAfter : Option Nat) : DCState :=
  if channelAvailable = false then st
  else
    let processed := match failAfter with
      | none => history
      | some k => history.take k
    processed.foldl (processMessage botUser) { st with event_message_map := [] }

/-- What one `upsert_event` call produced: the returned `int | None`, the
state of the two indices afterwards, and whether `channel.send` was called. -/
structure UpsertOutcome where
  result : Option Nat
  state : DCState
  sent : Bool
deriving DecidableEq, Repr

/-- `DiscordClient.upsert_event`. Looks up the event id in
`event_message_map`; when that is falsy and `event.html_link` is truthy,
looks up the link in `_url_to_message_map` and backfills
`event_message_map` on a truthy hit; a truthy `existing_message_id` is
returned with no send; otherwise `channel.send` runs (its outcome is the
`sendRes` oracle) and on success both indices record the new message id.
`discord.HTTPException` and any other exception from the send are caught
and turn into a `None` return. -/
def upsert_event (st : DCState) (channelAvailable : Bool) (ev : GoogleCalendarEvent)
    (sendRes : SendResult) : UpsertOutcome :=
  if channelAvailable = false then ⟨none, st, false⟩
  else
    let existing0 := dictGet st.event_message_map ev.id
    let afterUrl : Option Nat × DCState :=
      if pyTruthy existing0 = false ∧ ev.html_link ≠ "" then
        let mu := dictGet st.url_to_message_map ev.html_link
        if pyTruthy mu then
          (mu, { st with event_message_map := dictSet st.event_message_map ev.id (mu.getD 0) })
        else (mu, st)
      else (existing0, st)
    if pyTruthy afterUrl.1 then ⟨afterUrl.1, afterUrl.2, false⟩
    else
      match sendRes with
      | SendResult.ok mid =>
        let st2 := { afterUrl.2 with
          event_message_map := dictSet afterUrl.2.event_message_map ev.id mid }
        let st3 :=
          if ev.html_link ≠ "" then
            { st2 with url_to_message_map := dictSet st2.url_to_message_map ev.html_link mid }
          else st2
        ⟨some mid, st3, true⟩
      | SendResult.httpError _ => ⟨none, afterUrl.2, true⟩
      | SendResult.otherError => ⟨none, afterUrl.2, true⟩

/-- `DiscordClient.delete_event_message`: returns the `bool` result and the
state afterwards. A falsy stored id (missing or 0) returns `False`;
`discord.NotFound` removes the index entry and returns `True` like the
success path; other exceptions return `False` with the entry kept. -/
def delete_event_message (st : DCState) (channelAvailable : Bool) (event_id : String)
    (ioRes : DeleteIOResult) : Bool × DCState :=
  if channelAvailable = false then (false, st)
  else
    let message_id := dictGet st.event_message_map event_id
    if pyTruthy message_id = false then (false, st)
    else
      match ioRes with
      | DeleteIOResult.ok =>
        (true, { st with event_message_map := dictErase st.event_message_map event_id })
      | DeleteIOResult.notFound =>
        (true, { st with event_message_map := dictErase st.event_message_map event_id })
      | DeleteIOResult.httpError _ => (false, st)
      | DeleteIOResult.otherError => (false, st)

/-- The statistics dict returned by `sync_events`. -/
structure SyncStats where
  total : Nat
  created : Nat
  skipped : Nat
  failed : Nat
deriving DecidableEq, Repr

/-- The body of the loop in `sync_events` for one event: capture
`existing_message_id = event_message_map.get(event.id) or
(url_to_message_map.get(event.html_link) if event.html_link else None)`
before the upsert, run the upsert, then classify created/skipped/failed
by Python truthiness of the two values. -/
def syncStep (channelAvailable : Bool) (acc : SyncStats × DCState)
    (p : GoogleCalendarEvent × SendResult) : SyncStats × DCState :=
  let st := acc.2
  let ev := p.1
  let fromEventMap := dictGet st.event_message_map ev.id
  let existing_message_id : Option Nat :=
    if pyTruthy fromEventMap then fromEventMap
    else if ev.html_link ≠ "" then dictGet st.url_to_message_map ev.html_link
    else none
  let out := upsert_event st channelAvailable ev p.2
  let stats := acc.1
  let stats2 :=
    if pyTruthy out.result then
      if pyTruthy existing_message_id then { stats with skipped := stats.skipped + 1 }
      else { stats with created := stats.created + 1 }
    else { stats with failed := stats.failed + 1 }
  (stats2, out.state)

/-- `DiscordClient.sync_events`: optionally rebuild the mapping from
history, then fold `syncStep` over the events (each paired with the
transport oracle for its potential send). -/
def sync_events (st : DCState) (channelAvailable : Bool) (botUser : Option Nat)
    (history : List HistMessage) (failAfter : Option Nat)
    (events : List (GoogleCalendarEvent × SendResult)) (rebuild_mapping : Bool) :
    SyncStats × DCState :=
  let st0 := if rebuild_mapping then
      rebuild_event_mapping st channelAvailable botUser history failAfter
    else st
  events.foldl (syncStep channelAvailable) (⟨events.length, 0, 0, 0⟩, st0)

/-! ### Association-list (dict) lemmas -/

theorem dictGet_nil (key : String) : dictGet [] key = none := rfl

theorem dictGet_dictErase_self (d : List (String × Nat)) (k : String) :
    dictGet (dictErase d k) k = none := by
  induction d with
  | nil => rfl
  | cons hd t ih =>
    obtain ⟨k1, v1⟩ := hd
    by_cases h : k1 = k
    · simpa [dictErase, h] using ih
    · have h2 : ¬ k = k1 := fun hh => h hh.symm
      simpa [dictErase, h, dictGet, h2] using ih

theorem dictGet_dictErase_ne (d : List (String × Nat)) (k key : String) (h : key ≠ k) :
    dictGet (dictErase d k) key = dictGet d key := by
  induction d with
  | nil => rfl
  | cons hd t ih =>
    obtain ⟨k1, v1⟩ := hd
    by_cases h1 : k1 = k
    · subst h1
      simpa [dictErase, dictGet, h] using ih
    · by_cases h2 : key = k1
      · simp [dictErase, h1, dictGet, h2]
      · simpa [dictErase, h1, dictGet, h2] using ih

theorem dictGet_dictSet_self (d : List (String × Nat)) (k : String) (v : Nat) :
    dictGet (dictSet d k v) k = some v := by
  simp [dictSet, dictGet]

theorem dictGet_dictSet_ne (d : List (String × Nat)) (k key : String) (v : Nat) (h : key ≠ k) :
    dictGet (dictSet d k v) key = dictGet d key := by
  simp [dictSet, dictGet, h, dictGet_dictErase_ne d k key h]

theorem dictGet_dictSet_isSome (d : List (String × Nat)) (k key : String) (v : Nat)
    (h : (dictGet d key).isSome = true) : (dictGet (dictSet d k v) key).isSome = true := by
  by_cases hk : key = k
  · subst hk; simp [dictGet_dictSet_self]
  · rwa [dictGet_dictSet_ne d k key v hk]

/-! ### History-scan lemmas -/

/-- The durable link a scanned message would record, if any: the message is
bot-authored, has at least one embed, and the first embed's url is truthy. -/
def qualifyingUrl (botUser : Option Nat) (msg : HistMessage) : Option String :=
  if (botUser.isSome ∧ msg.authorId = botUser.getD 0 ∧ msg.embeds ≠ []) then
    match msg.embeds with
    | [] => none
    | embedUrl :: _ =>
      match embedUrl with
      | some u => if u ≠ "" then some u else none
      | none => none
  else none

theorem processMessage_eq (b : Option Nat) (st : DCState) (m : HistMessage) :
    processMessage b st m =
      match qualifyingUrl b m with
      | some u => { st with url_to_message_map := dictSet st.url_to_message_map u m.id }
      | none => st := by
  unfold processMessage qualifyingUrl
  by_cases hb : (b.isSome ∧ m.authorId = b.getD 0 ∧ m.embeds ≠ [])
  · simp only [if_pos hb]
    cases m.embeds with
    | nil => rfl
    | cons e t =>
      cases e with
      | none => rfl
      | some u => by_cases hu : u ≠ "" <;> simp [hu]
  · simp [hb]

theorem processMessage_event_map (b : Option Nat) (st : DCState) (m : HistMessage) :
    (processMessage b st m).event_message_map = st.event_message_map := by
  rw [processMessage_eq]
  cases qualifyingUrl b m <;> rfl

theorem processMessage_url_lookup (b : Option Nat) (st : DCState) (m : HistMessage)
    (u : String) :
    dictGet (processMessage b st m).url_to_message_map u =
      if qualifyingUrl b m = some u then some m.id else dictGet st.url_to_message_map u := by
  rw [processMessage_eq]
  cases hq : qualifyingUrl b m with
  | none => simp
  | some u1 =>
    by_cases he : u1 = u
    · subst he; simp [dictGet_dictSet_self]
    · have : ¬ (u1 = u) := he
      simp only [Option.some.injEq, this, if_false]
      exact dictGet_dictSet_ne st.url_to_message_map u1 u m.id (fun hh => he hh.symm)

/-- The message id the history scan leaves in the durable-link index for a
given url: the id of the last scanned message whose `qualifyingUrl` is that
url, if any. -/
def lastQualifying (b : Option Nat) : List HistMessage → String → Option Nat
  | [], _ => none
  | msg :: t, u =>
    match lastQualifying b t u with
    | some mid => some mid
    | none => if qualifyingUrl b msg = some u then some msg.id else none

theorem lastQualifying_cons (b : Option Nat) (msg : HistMessage) (t : List HistMessage)
    (u : String) :
    lastQualifying b (msg :: t) u =
      (match lastQualifying b t u with
       | some mid => some mid
       | none => if qualifyingUrl b msg = some u then some msg.id else none) := rfl

theorem foldl_processMessage_url_lookup (b : Option Nat) (t : List HistMessage) :
    ∀ (st : DCState) (u : String),
      dictGet (t.foldl (processMessage b) st).url_to_message_map u =
        (match lastQualifying b t u with
         | some mid => some mid
         | none => dictGet st.url_to_message_map u) := by
  induction t with
  | nil => intro st u; rfl
  | cons msg t ih =>
    intro st u
    rw [List.foldl_cons, ih, lastQualifying_cons]
    cases hl : lastQualifying b t u with
    | some mid => simp
    | none =>
      rw [processMessage_url_lookup]
      by_cases hq : qualifyingUrl b msg = some u <;> simp [hq]

theorem foldl_processMessage_event_map (b : Option Nat) (t : List HistMessage) :
    ∀ st : DCState, (t.foldl (processMessage b) st).event_message_map = st.event_message_map := by
  induction t with
  | nil => intro st; rfl
  | cons msg t ih =>
    intro st
    rw [List.foldl_cons, ih, processMessage_event_map]

/-! ### Upsert path lemmas -/

theorem upsert_found (st : DCState) (ev : GoogleCalendarEvent) (r : SendResult)
    (h : pyTruthy (dictGet st.event_message_map ev.id) = true) :
    upsert_event st true ev r = ⟨dictGet st.event_message_map ev.id, st, false⟩ := by
  simp [upsert_event, h]

theorem upsert_found_by_url (st : DCState) (ev : GoogleCalendarEvent) (r : SendResult)
    (h0 : pyTruthy (dictGet st.event_message_map ev.id) = false)
    (hl : ev.html_link ≠ "")
    (hu : pyTruthy (dictGet st.url_to_message_map ev.html_link) = true) :
    upsert_event st true ev r =
      ⟨dictGet st.url_to_message_map ev.html_link,
       { st with
          event_message_map :=
            dictSet st.event_message_map ev.id
              ((dictGet st.url_to_message_map ev.html_link).getD 0) },
       false⟩ := by
  simp [upsert_event, h0, hl, hu]

theorem upsert_create (st : DCState) (ev : GoogleCalendarEvent) (r : SendResult)
    (h0 : pyTruthy (dictGet st.event_message_map ev.id) = false)
    (hu : ev.html_link = "" ∨ pyTruthy (dictGet st.url_to_message_map ev.html_link) = false) :
    upsert_event st true ev r =
      (match r with
       | SendResult.ok mid =>
         ⟨some mid,
          { event_message_map := dictSet st.event_message_map ev.id mid,
            url_to_message_map :=
              if ev.html_link ≠ "" then dictSet st.url_to_message_map ev.html_link mid
              else st.url_to_message_map }, true⟩
       | SendResult.httpError _ => ⟨none, st, true⟩
       | SendResult.otherError => ⟨none, st, true⟩) := by
  rcases hu with hl | hu
  · cases r <;> simp [upsert_event, h0, hl]
  · by_cases hl : ev.html_link = ""
    · cases r <;> simp [upsert_event, h0, hl]
    · cases r <;> simp [upsert_event, h0, hl, hu]

theorem upsert_result_recorded (st : DCState) (ev : GoogleCalendarEvent) (r : SendResult)
    (m : Nat) (h : (upsert_event st true ev r).result = some m) :
    dictGet (upsert_event st true ev r).state.event_message_map ev.id = some m := by
  by_cases h0 : pyTruthy (dictGet st.event_message_map ev.id) = true
  · rw [upsert_found st ev r h0] at h ⊢
    exact h
  · rw [Bool.not_eq_true] at h0
    by_cases hl : ev.html_link = ""
    · rw [upsert_create st ev r h0 (Or.inl hl)] at h ⊢
      cases r with
      | ok mid =>
        simp at h
        simp [dictGet_dictSet_self, h]
      | httpError s => simp at h
      | otherError => simp at h
    · by_cases hu : pyTruthy (dictGet st.url_to_message_map ev.html_link) = true
      · rw [upsert_found_by_url st ev r h0 hl hu] at h ⊢
        simp at h ⊢
        simp [dictGet_dictSet_self, h]
      · rw [Bool.not_eq_true] at hu
        rw [upsert_create st ev r h0 (Or.inr hu)] at h ⊢
        cases r with
        | ok mid =>
          simp at h
          simp [dictGet_dictSet_self, h]
        | httpError s => simp at h
        | otherError => simp at h

/-! ### Claim theorems: reconciliation core -/

/-- C1 counterexample: `rebuild_event_mapping` does NOT first clear the
durable-link index. Starting from a state whose durable-link index holds
`"L" ↦ 5` and scanning an empty history, the claim forces the final
durable-link index to hold nothing (cleared, then nothing recorded); the
code instead retains the prior entry, because line 126 clears
`event_message_map`, not `_url_to_message_map`. -/
theorem rebuild_retains_prior_link_entry :
    dictGet (rebuild_event_mapping ⟨[("e1", 1)], [("L", 5)]⟩ true (some 1) [] none).url_to_message_map "L"
      = some 5 := by decide

/-- C1 (amended): a successful `rebuild_event_mapping` with an available
channel first clears the event-id index (not the durable-link index); then,
scanning messages in order, for each message authored by the bot account
whose first embed carries a truthy url it records url ↦ message id in the
durable-link index — so the final lookup of any url is the id of the last
such scanned message carrying it, and a url carried by no such message
keeps its prior mapping; messages without such a payload add no mapping
and cause no error. -/
theorem rebuild_event_mapping_spec (st : DCState) (b : Option Nat)
    (history : List HistMessage) (u : String) :
    (rebuild_event_mapping st true b history none).event_message_map = [] ∧
    dictGet (rebuild_event_mapping st true b history none).url_to_message_map u =
      (match lastQualifying b history u with
       | some mid => some mid
       | none => dictGet st.url_to_message_map u) := by
  have h1 : rebuild_event_mapping st true b history none =
      history.foldl (processMessage b) { st with event_message_map := [] } := by
    simp [rebuild_event_mapping]
  rw [h1]
  exact ⟨foldl_processMessage_event_map b history _,
    by rw [foldl_processMessage_url_lookup]⟩

/-- C2: a successful rebuild empties the event-id index and only adds to the
durable-link index — every url mapped before the rebuild is still mapped
after it, so link entries accumulate across repeated rebuilds. -/
theorem rebuild_frame_effect (st : DCState) (b : Option Nat) (history : List HistMessage)
    (u : String) (h : (dictGet st.url_to_message_map u).isSome = true) :
    (rebuild_event_mapping st true b history none).event_message_map = [] ∧
    (dictGet (rebuild_event_mapping st true b history none).url_to_message_map u).isSome = true := by
  have h1 : rebuild_event_mapping st true b history none =
      history.foldl (processMessage b) { st with event_message_map := [] } := by
    simp [rebuild_event_mapping]
  rw [h1]
  refine ⟨foldl_processMessage_event_map b history _, ?_⟩
  rw [foldl_processMessage_url_lookup]
  cases lastQualifying b history u with
  | some mid => rfl
  | none => exact h

theorem rebuild_frame_effect_witness :
    (rebuild_event_mapping ⟨[("e1", 3)], [("L", 9)]⟩ true (some 1) [⟨1, 42, [some "M"]⟩] none).event_message_map = [] ∧
    (dictGet (rebuild_event_mapping ⟨[("e1", 3)], [("L", 9)]⟩ true (some 1) [⟨1, 42, [some "M"]⟩] none).url_to_message_map "L").isSome = true :=
  rebuild_frame_effect ⟨[("e1", 3)], [("L", 9)]⟩ (some 1) [⟨1, 42, [some "M"]⟩] "L" (by decide)

/-- C3: when the event-id index has no entry for the event but the
durable-link index maps its non-empty link to a valid message id `m`,
`upsert_event` returns `m`, performs no send, and backfills the event-id
index with `event.id ↦ m`. -/
theorem upsert_cross_run_durability (st : DCState) (ev : GoogleCalendarEvent)
    (r : SendResult) (m : Nat) (hm : m ≠ 0) (hlink : ev.html_link ≠ "")
    (hid : dictGet st.event_message_map ev.id = none)
    (hurl : dictGet st.url_to_message_map ev.html_link = some m) :
    (upsert_event st true ev r).result = some m ∧
    (upsert_event st true ev r).sent = false ∧
    dictGet (upsert_event st true ev r).state.event_message_map ev.id = some m := by
  have h0 : pyTruthy (dictGet st.event_message_map ev.id) = false := by rw [hid]; rfl
  have hu : pyTruthy (dictGet st.url_to_message_map ev.html_link) = true := by
    rw [hurl]; simp [pyTruthy, hm]
  rw [upsert_found_by_url st ev r h0 hlink hu]
  refine ⟨hurl, rfl, ?_⟩
  simp [dictGet_dictSet_self, hurl]

theorem upsert_cross_run_durability_witness :
    (upsert_event ⟨[], [("L", 7)]⟩ true ⟨"e1", "T", none, none, "L", none, none, false, []⟩ SendResult.otherError).result = some 7 ∧
    (upsert_event ⟨[], [("L", 7)]⟩ true ⟨"e1", "T", none, none, "L", none, none, false, []⟩ SendResult.otherError).sent = false ∧
    dictGet (upsert_event ⟨[], [("L", 7)]⟩ true ⟨"e1", "T", none, none, "L", none, none, false, []⟩ SendResult.otherError).state.event_message_map "e1" = some 7 :=
  upsert_cross_run_durability ⟨[], [("L", 7)]⟩ ⟨"e1", "T", none, none, "L", none, none, false, []⟩
    SendResult.otherError 7 (by decide) (by decide) (by decide) (by decide)

/-- C4: processing the same event twice in the same run — first call
successful with a valid message id — makes the second call return the same
message id and perform no send. -/
theorem upsert_idempotent_in_run (st : DCState) (ev : GoogleCalendarEvent)
    (r1 r2 : SendResult) (m : Nat) (hm : m ≠ 0)
    (h1 : (upsert_event st true ev r1).result = some m) :
    (upsert_event (upsert_event st true ev r1).state true ev r2).result = some m ∧
    (upsert_event (upsert_event st true ev r1).state true ev r2).sent = false := by
  have hrec := upsert_result_recorded st ev r1 m h1
  have ht : pyTruthy (dictGet (upsert_event st true ev r1).state.event_message_map ev.id) = true := by
    rw [hrec]; simp [pyTruthy, hm]
  rw [upsert_found _ ev r2 ht]
  exact ⟨by simpa using hrec, rfl⟩

theorem upsert_idempotent_in_run_witness :
    (upsert_event (upsert_event ⟨[], []⟩ true ⟨"e1", "T", none, none, "L", none, none, false, []⟩ (SendResult.ok 7)).state true ⟨"e1", "T", none, none, "L", none, none, false, []⟩ (SendResult.httpError 500)).result = some 7 ∧
    (upsert_event (upsert_event ⟨[], []⟩ true ⟨"e1", "T", none, none, "L", none, none, false, []⟩ (SendResult.ok 7)).state true ⟨"e1", "T", none, none, "L", none, none, false, []⟩ (SendResult.httpError 500)).sent = false :=
  upsert_idempotent_in_run ⟨[], []⟩ ⟨"e1", "T", none, none, "L", none, none, false, []⟩
    (SendResult.ok 7) (SendResult.httpError 500) 7 (by decide) (by decide)

/-- C7: once a valid message id `m` is recorded for the event's link (and
the event-id index holds nothing, or the same id, for the event),
re-upserting with the same id and link — title and description free to
change — returns `m` unchanged, performs no send (the code has no edit call
at all), and both indices still map the event's keys to `m`. -/
theorem upsert_no_content_mutation (st : DCState) (ev : GoogleCalendarEvent)
    (r : SendResult) (m : Nat) (hm : m ≠ 0) (hlink : ev.html_link ≠ "")
    (hurl : dictGet st.url_to_message_map ev.html_link = some m)
    (hid : dictGet st.event_message_map ev.id = none ∨
           dictGet st.event_message_map ev.id = some m) :
    (upsert_event st true ev r).result = some m ∧
    (upsert_event st true ev r).sent = false ∧
    dictGet (upsert_event st true ev r).state.event_message_map ev.id = some m ∧
    dictGet (upsert_event st true ev r).state.url_to_message_map ev.html_link = some m := by
  rcases hid with hid | hid
  · have h0 : pyTruthy (dictGet st.event_message_map ev.id) = false := by rw [hid]; rfl
    have hu : pyTruthy (dictGet st.url_to_message_map ev.html_link) = true := by
      rw [hurl]; simp [pyTruthy, hm]
    rw [upsert_found_by_url st ev r h0 hlink hu]
    refine ⟨hurl, rfl, ?_, ?_⟩
    · simp [dictGet_dictSet_self, hurl]
    · simpa using hurl
  · have ht : pyTruthy (dictGet st.event_message_map ev.id) = true := by
      rw [hid]; simp [pyTruthy, hm]
    rw [upsert_found st ev r ht]
    exact ⟨by simpa using hid, rfl, by simpa using hid, by simpa using hurl⟩

theorem upsert_no_content_mutation_witness :
    (upsert_event ⟨[("e1", 7)], [("L", 7)]⟩ true ⟨"e1", "NewTitle", some "NewDesc", none, "L", none, none, false, []⟩ (SendResult.ok 99)).result = some 7 ∧
    (upsert_event ⟨[("e1", 7)], [("L", 7)]⟩ true ⟨"e1", "NewTitle", some "NewDesc", none, "L", none, none, false, []⟩ (SendResult.ok 99)).sent = false ∧
    dictGet (upsert_event ⟨[("e1", 7)], [("L", 7)]⟩ true ⟨"e1", "NewTitle", some "NewDesc", none, "L", none, none, false, []⟩ (SendResult.ok 99)).state.event_message_map "e1" = some 7 ∧
    dictGet (upsert_event ⟨[("e1", 7)], [("L", 7)]⟩ true ⟨"e1", "NewTitle", some "NewDesc", none, "L", none, none, false, []⟩ (SendResult.ok 99)).state.url_to_message_map "L" = some 7 :=
  upsert_no_content_mutation ⟨[("e1", 7)], [("L", 7)]⟩
    ⟨"e1", "NewTitle", some "NewDesc", none, "L", none, none, false, []⟩
    (SendResult.ok 99) 7 (by decide) (by decide) (by decide) (by decide)

/-- C10: a delete whose target message raises `discord.NotFound` is treated
as success: it returns `True` and removes the event-id index entry. -/
theorem delete_not_found_success (st : DCState) (eid : String) (m : Nat)
    (hm : m ≠ 0) (h : dictGet st.event_message_map eid = some m) :
    (delete_event_message st true eid DeleteIOResult.notFound).1 = true ∧
    dictGet (delete_event_message st true eid DeleteIOResult.notFound).2.event_message_map eid = none := by
  have ht : pyTruthy (dictGet st.event_message_map eid) = true := by
    rw [h]; simp [pyTruthy, hm]
  simp [delete_event_message, ht, dictGet_dictErase_self]

theorem delete_not_found_success_witness :
    (delete_event_message ⟨[("e1", 7)], []⟩ true "e1" DeleteIOResult.notFound).1 = true ∧
    dictGet (delete_event_message ⟨[("e1", 7)], []⟩ true "e1" DeleteIOResult.notFound).2.event_message_map "e1" = none :=
  delete_not_found_success ⟨[("e1", 7)], []⟩ "e1" 7 (by decide) (by decide)

/-- C6: transport errors are contained at the operation boundary. A
`discord.HTTPException` during creation makes `upsert_event` return `None`
with the indices untouched (never raising); a transport failure after `k`
scanned messages leaves `rebuild_event_mapping` with exactly the state a
clean scan of those `k` messages builds; and `sync_events` turns such a
per-event failure into `failed = 1` instead of raising. -/
theorem transport_errors_contained (st : DCState) (ev : GoogleCalendarEvent)
    (status : Nat) (b : Option Nat) (history : List HistMessage) (k : Nat)
    (hid : dictGet st.event_message_map ev.id = none)
    (hurl : ev.html_link = "" ∨ dictGet st.url_to_message_map ev.html_link = none) :
    (upsert_event st true ev (SendResult.httpError status)).result = none ∧
    (upsert_event st true ev (SendResult.httpError status)).state = st ∧
    rebuild_event_mapping st true b history (some k) =
      rebuild_event_mapping st true b (history.take k) none ∧
    (sync_events st true b [] none [(ev, SendResult.httpError status)] false).1 =
      ⟨1, 0, 0, 1⟩ := by
  have h0 : pyTruthy (dictGet st.event_message_map ev.id) = false := by rw [hid]; rfl
  have hu2 : ev.html_link = "" ∨ pyTruthy (dictGet st.url_to_message_map ev.html_link) = false := by
    rcases hurl with h | h
    · exact Or.inl h
    · exact Or.inr (by rw [h]; rfl)
  have hup : upsert_event st true ev (SendResult.httpError status) = ⟨none, st, true⟩ :=
    upsert_create st ev (SendResult.httpError status) h0 hu2
  refine ⟨by rw [hup], by rw [hup], ?_, ?_⟩
  · simp [rebuild_event_mapping]
  · simp [sync_events, syncStep, hup, pyTruthy]

theorem transport_errors_contained_witness :
    (upsert_event ⟨[], []⟩ true ⟨"e1", "T", none, none, "", none, none, false, []⟩ (SendResult.httpError 500)).result = none ∧
    (upsert_event ⟨[], []⟩ true ⟨"e1", "T", none, none, "", none, none, false, []⟩ (SendResult.httpError 500)).state = ⟨[], []⟩ ∧
    rebuild_event_mapping ⟨[], []⟩ true none [⟨0, 9, []⟩] (some 0) =
      rebuild_event_mapping ⟨[], []⟩ true none ([⟨0, 9, []⟩].take 0) none ∧
    (sync_events ⟨[], []⟩ true none [] none [(⟨"e1", "T", none, none, "", none, none, false, []⟩, SendResult.httpError 500)] false).1 =
      ⟨1, 0, 0, 1⟩ :=
  transport_errors_contained ⟨[], []⟩ ⟨"e1", "T", none, none, "", none, none, false, []⟩
    500 none [⟨0, 9, []⟩] 0 (by decide) (by decide)

/-- C5: syncing one brand-new event (both indices empty, channel available,
send succeeding with a valid id, rebuild disabled or scanning an empty
history) yields `created = 1, skipped = 0, failed = 0`, and afterwards the
event-id index maps the event's id and the durable-link index maps its
link to the new message id. The created/skipped classification is taken
from the pre-upsert lookup captured in `syncStep` (`existing_message_id`),
computed over both indices before `upsert_event` runs. -/
theorem sync_brand_new_event (ev : GoogleCalendarEvent) (mid : Nat) (b : Option Nat)
    (history : List HistMessage) (failAfter : Option Nat) (rb : Bool)
    (hmid : mid ≠ 0) (hlink : ev.html_link ≠ "")
    (hrb : rb = false ∨ history = []) :
    (sync_events ⟨[], []⟩ true b history failAfter [(ev, SendResult.ok mid)] rb).1 = ⟨1, 1, 0, 0⟩ ∧
    dictGet (sync_events ⟨[], []⟩ true b history failAfter [(ev, SendResult.ok mid)] rb).2.event_message_map ev.id = some mid ∧
    dictGet (sync_events ⟨[], []⟩ true b history failAfter [(ev, SendResult.ok mid)] rb).2.url_to_message_map ev.html_link = some mid := by
  have hst0 : (if rb = true then rebuild_event_mapping ⟨[], []⟩ true b history failAfter
      else ⟨[], []⟩) = (⟨[], []⟩ : DCState) := by
    rcases hrb with h | h
    · rw [h]; rfl
    · subst h
      cases rb
      · rfl
      · show rebuild_event_mapping ⟨[], []⟩ true b [] failAfter = ⟨[], []⟩
        cases failAfter <;> simp [rebuild_event_mapping]
  have h0 : pyTruthy (dictGet ([] : List (String × Nat)) ev.id) = false := rfl
  have hup : upsert_event ⟨[], []⟩ true ev (SendResult.ok mid) =
      ⟨some mid, ⟨dictSet [] ev.id mid, dictSet [] ev.html_link mid⟩, true⟩ := by
    rw [upsert_create ⟨[], []⟩ ev (SendResult.ok mid) h0 (Or.inr rfl)]
    simp [hlink]
  refine ⟨?_, ?_, ?_⟩ <;>
    simp [sync_events, hst0, syncStep, hup, dictGet, pyTruthy, hmid, hlink, dictGet_dictSet_self]

theorem sync_brand_new_event_witness :
    (sync_events ⟨[], []⟩ true none [] none [(⟨"e1", "T", none, none, "L", none, none, false, []⟩, SendResult.ok 7)] true).1 = ⟨1, 1, 0, 0⟩ ∧
    dictGet (sync_events ⟨[], []⟩ true none [] none [(⟨"e1", "T", none, none, "L", none, none, false, []⟩, SendResult.ok 7)] true).2.event_message_map "e1" = some 7 ∧
    dictGet (sync_events ⟨[], []⟩ true none [] none [(⟨"e1", "T", none, none, "L", none, none, false, []⟩, SendResult.ok 7)] true).2.url_to_message_map "L" = some 7 :=
  sync_brand_new_event ⟨"e1", "T", none, none, "L", none, none, false, []⟩ 7 none [] none true
    (by decide) (by decide) (Or.inr rfl)

/-! ### Embed rendering lemmas -/

theorem timeFields_name (ev : GoogleCalendarEvent) (f : EmbedField)
    (hf : f ∈ timeFields ev) : f.name = "⏰ Time" := by
  cases h : ev.start_time with
  | none => simp [timeFields, h] at hf
  | some st =>
    simp [timeFields, h] at hf
    simp [hf]

theorem locationFields_name (ev : GoogleCalendarEvent) (f : EmbedField)
    (hf : f ∈ locationFields ev) : f.name = "📍 Location" := by
  cases h : ev.location with
  | none => simp [locationFields, h] at hf
  | some l =>
    by_cases hl : l = ""
    · simp [locationFields, h, hl] at hf
    · simp [locationFields, h, hl] at hf
      simp [hf]

theorem descriptionFields_name (ev : GoogleCalendarEvent) (f : EmbedField)
    (hf : f ∈ descriptionFields ev) : f.name = "📝 Description" := by
  cases h : ev.description with
  | none => simp [descriptionFields, h] at hf
  | some s =>
    by_cases hs : s = ""
    · simp [descriptionFields, h, hs] at hf
    · simp [descriptionFields, h, hs] at hf
      simp [hf]

theorem find?_name_append (l1 l2 : List EmbedField) (nm : String)
    (h : ∀ f ∈ l1, f.name ≠ nm) :
    (l1 ++ l2).find? (fun f => f.name = nm) = l2.find? (fun f => f.name = nm) := by
  induction l1 with
  | nil => rfl
  | cons f t ih =>
    have hf : f.name ≠ nm := h f (by simp)
    rw [List.cons_append, List.find?_cons_of_neg _ (by simp [hf])]
    exact ih (fun g hg => h g (by simp [hg]))

theorem getFieldValue_description (ev : GoogleCalendarEvent) (s : String)
    (hdesc : ev.description = some s) (hne : s ≠ "") :
    getFieldValue (to_discord_embed ev) "📝 Description" = some (truncatedDescription s) := by
  have hd : descriptionFields ev = [⟨"📝 Description", truncatedDescription s, false⟩] := by
    simp [descriptionFields, hdesc, hne]
  have hfields : (to_discord_embed ev).fields =
      timeFields ev ++ (locationFields ev ++ (descriptionFields ev ++ attendeeFields ev)) := by
    simp [to_discord_embed, List.append_assoc]
  unfold getFieldValue
  rw [hfields, find?_name_append, find?_name_append, hd]
  · rw [List.singleton_append, List.find?_cons_of_pos _ (by simp)]
    rfl
  · intro f hf
    rw [locationFields_name ev f hf]
    decide
  · intro f hf
    rw [timeFields_name ev f hf]
    decide

theorem getFieldValue_attendees (ev : GoogleCalendarEvent) (hatt : ev.attendees ≠ []) :
    getFieldValue (to_discord_embed ev) "👥 Attendees" = some (attendeesValue ev.attendees) := by
  have ha : attendeeFields ev = [⟨"👥 Attendees", attendeesValue ev.attendees, false⟩] := by
    simp [attendeeFields, hatt]
  have hfields : (to_discord_embed ev).fields =
      timeFields ev ++ (locationFields ev ++ (descriptionFields ev ++ attendeeFields ev)) := by
    simp [to_discord_embed, List.append_assoc]
  unfold getFieldValue
  rw [hfields, find?_name_append, find?_name_append, find?_name_append, ha]
  · rw [List.find?_cons_of_pos _ (by simp)]
    rfl
  · intro f hf
    rw [descriptionFields_name ev f hf]
    decide
  · intro f hf
    rw [locationFields_name ev f hf]
    decide
  · intro f hf
    rw [timeFields_name ev f hf]
    decide

/-- C8: a (rendered) description longer than 1024 characters renders as the
first 1021 characters followed by the 3-character suffix `"..."`, giving
exactly 1024 characters; a description of length at most 1024 renders
unchanged. -/
theorem description_truncation_law (ev : GoogleCalendarEvent) (s : String)
    (hdesc : ev.description = some s) (hne : s ≠ "") :
    (1024 < s.length →
      getFieldValue (to_discord_embed ev) "📝 Description" = some (strSlice s 1021 ++ "...") ∧
      (strSlice s 1021 ++ "...").length = 1024) ∧
    (s.length ≤ 1024 →
      getFieldValue (to_discord_embed ev) "📝 Description" = some s) := by
  have hg := getFieldValue_description ev s hdesc hne
  constructor
  · intro hlen
    constructor
    · rw [hg]
      simp only [truncatedDescription]
      rw [if_pos hlen]
    · have hds : s.data.length = s.length := rfl
      have h1 : (strSlice s 1021).length = min 1021 s.data.length := by
        have hs : (strSlice s 1021).length = (s.data.take 1021).length := rfl
        rw [hs, List.length_take]
      have h3 : ("..." : String).length = 3 := rfl
      have h2 : (strSlice s 1021 ++ "...").length = (strSlice s 1021).length + 3 := by
        rw [String.length_append, h3]
      rw [h2, h1, Nat.min_eq_left (by omega)]
  · intro hlen
    rw [hg]
    simp only [truncatedDescription]
    rw [if_neg (by omega)]

theorem description_truncation_law_witness :
    (1024 < ("short" : String).length →
      getFieldValue (to_discord_embed ⟨"e1", "T", some "short", none, "", none, none, false, []⟩) "📝 Description" = some (strSlice "short" 1021 ++ "...") ∧
      (strSlice "short" 1021 ++ "...").length = 1024) ∧
    (("short" : String).length ≤ 1024 →
      getFieldValue (to_discord_embed ⟨"e1", "T", some "short", none, "", none, none, false, []⟩) "📝 Description" = some "short") :=
  description_truncation_law ⟨"e1", "T", some "short", none, "", none, none, false, []⟩ "short"
    rfl (by decide)

/-- C9: for a non-empty attendee list of length `k`, the rendered attendee
field joins the first 10 addresses with `", "` and carries the
`"+{k-10} more"` annotation (as the appended text `" (+{k-10} more)"`)
exactly when `k > 10`; for `k ≤ 10` the value is just the full join with no
suffix. -/
theorem attendee_cap_law (ev : GoogleCalendarEvent) (hatt : ev.attendees ≠ []) :
    (ev.attendees.length ≤ 10 →
      getFieldValue (to_discord_embed ev) "👥 Attendees" =
        some (String.intercalate ", " ev.attendees)) ∧
    (10 < ev.attendees.length →
      getFieldValue (to_discord_embed ev) "👥 Attendees" =
        some (String.intercalate ", " (ev.attendees.take 10) ++
          " (+" ++ toString (ev.attendees.length - 10) ++ " more)")) := by
  have hg := getFieldValue_attendees ev hatt
  constructor
  · intro hlen
    rw [hg]
    simp only [attendeesValue]
    rw [if_neg (by omega), List.take_of_length_le hlen]
  · intro hlen
    rw [hg]
    simp only [attendeesValue]
    rw [if_pos (by omega)]

theorem attendee_cap_law_witness :
    ((["a@x", "b@y"] : List String).length ≤ 10 →
      getFieldValue (to_discord_embed ⟨"e1", "T", none, none, "", none, none, false, ["a@x", "b@y"]⟩) "👥 Attendees" =
        some (String.intercalate ", " ["a@x", "b@y"])) ∧
    (10 < (["a@x", "b@y"] : List String).length →
      getFieldValue (to_discord_embed ⟨"e1", "T", none, none, "", none, none, false, ["a@x", "b@y"]⟩) "👥 Attendees" =
        some (String.intercalate ", " ((["a@x", "b@y"] : List String).take 10) ++
          " (+" ++ toString ((["a@x", "b@y"] : List String).length - 10) ++ " more)")) :=
  attendee_cap_law ⟨"e1", "T", none, none, "", none, none, false, ["a@x", "b@y"]⟩ (by decide)
